import Mathlib

/-!
Verification of the streaming chat-turn slice of the AI-Mastery-Academy-x-Groq
repository: the mode catalog (`src/lib/groqModels.ts`), the API route
(`src/app/api/chat/route.ts`), the client-side submit guard
(`src/app/chat/page.tsx`), and the Conversation Store / Turn Streaming
Controller contract of the specification (the controller itself lives in the
third-party `useChat` hook; only its call site is in the repository, so those
parts are modelled from the spec).
-/

namespace GroqChat

/-- A wire-format message, as in `lib/types.ts`:
`{ role: 'user' | 'assistant' | 'system'; content: string }` (roles are
strings on the wire; the route does not re-validate them). -/
structure Message where
  role : String
  content : String
deriving DecidableEq, Repr

/-- The mode catalog of `src/lib/groqModels.ts` (`MODELS`), as the runtime
lookup the route performs with `MODELS[mode]`: a key that is not in the
object yields `undefined`, here `none`. -/
def MODELS : String → Option String
  | "fast" => some "llama-3.1-8b-instant"
  | "default" => some "llama-3.3-70b-versatile"
  | "reasoning" => some "openai/gpt-oss-120b"
  | "browserLite" => some "openai/gpt-oss-20b"
  | "safety" => some "meta-llama/llama-guard-4-12b"
  | "compound" => some "groq/compound"
  | _ => none

/-- The parsed JSON body of a POST to `/api/chat`
(`const { messages, mode }: ChatRequest = await req.json()`).
`messages = none` models a body whose `messages` field is absent, falsy, or
not an array (the route's `!messages || !Array.isArray(messages)` check
rejects exactly those; an empty array `[]` is truthy in JS and passes).
`mode = none` models an absent `mode` field; note `!mode || !MODELS[mode]`
also rejects a present-but-unknown key because the lookup yields
`undefined`, and the empty-string key is both falsy and absent from
`MODELS`, so `Option.bind` with `MODELS` captures the whole check. -/
structure ChatRequest where
  messages : Option (List Message)
  mode : Option String
deriving DecidableEq, Repr

/-- The response of the POST handler in `src/app/api/chat/route.ts`.
`text status body` is `new Response(body, { status })`; `stream modelId
messages` is the success path, recording the single outbound inference
request `streamText({ model: groqProvider(modelId), messages })` whose
result is returned as the data-stream response. -/
inductive ApiResponse where
  | text (status : Nat) (body : String)
  | stream (modelId : String) (messages : List Message)
deriving DecidableEq, Repr

/-- The POST handler of `src/app/api/chat/route.ts`.
`parsed = none` models `req.json()` throwing (e.g. a non-JSON body), which
the surrounding `try`/`catch` turns into a 500; `streamOk = false` models
`streamText`/stream setup throwing, caught by the same `catch`. The handler
is a total function: every path returns a response, none re-throws. -/
def POST (parsed : Option ChatRequest) (streamOk : Bool) : ApiResponse :=
  match parsed with
  | none => ApiResponse.text 500 "Internal server error"
  | some req =>
    match req.messages with
    | none => ApiResponse.text 400 "Messages array is required"
    | some msgs =>
      match req.mode.bind MODELS with
      | none => ApiResponse.text 400 "Valid mode is required"
      | some modelId =>
        if streamOk then ApiResponse.stream modelId msgs
        else ApiResponse.text 500 "Internal server error"

/-- JS `String.prototype.trim()`: drop whitespace from both ends of the
string (modelled over the character list so it evaluates by kernel
reduction). -/
def jsTrim (s : String) : String :=
  ⟨((s.data.dropWhile Char.isWhitespace).reverse.dropWhile
      Char.isWhitespace).reverse⟩

/-- The submit guard of `src/app/chat/page.tsx`: the Send button is
`disabled={isLoading || !input.trim()}`, so a submission is blocked while a
response is loading or when the input is empty after trimming
(`"".trim()` is falsy). -/
def sendDisabled (isLoading : Bool) (input : String) : Bool :=
  isLoading || jsTrim input == ""

/-! ## Conversation Store

Modelled from the spec: the Conversation Store and Turn Streaming Controller
of §4 are implemented by the third-party `useChat` hook of `ai/react`; only
its call site (`src/app/chat/page.tsx`) is in the repository. The
definitions below follow the spec's §3 data model and §4.1 operations. -/

/-- Modelled from the spec: classified transport-error reasons of §7
(`timeout`, `cancelled`, `remoteError`, `unknown`). -/
inductive ErrReason where
  | timeout
  | cancelled
  | remoteError
  | unknown
deriving DecidableEq, Repr

/-- Modelled from the spec: turn roles, the closed set
`user | assistant | system` of §3. -/
inductive Role where
  | user
  | assistant
  | system
deriving DecidableEq, Repr

/-- Wire form of a role, as it appears in the transcript. -/
def Role.toWire : Role → String
  | .user => "user"
  | .assistant => "assistant"
  | .system => "system"

/-- Modelled from the spec: turn status
`pending | streaming | complete | errored` of §3, with the errored reason. -/
inductive Status where
  | pending
  | streaming
  | complete
  | errored (reason : ErrReason)
deriving DecidableEq, Repr

/-- Modelled from the spec: a Turn of §3 — id, role, content buffer,
status. -/
structure Turn where
  id : Nat
  role : Role
  content : String
  status : Status
deriving DecidableEq, Repr

/-- Modelled from the spec: a Conversation is the ordered Turn sequence;
`nextId` supplies fresh opaque identifiers for appended turns. -/
structure Store where
  turns : List Turn
  nextId : Nat
deriving DecidableEq, Repr

/-- Modelled from the spec: the Store's state-invariant errors of §4.1/§7. -/
inductive StoreError where
  | InvalidRoleError
  | InvalidTransitionError
deriving DecidableEq, Repr

/-- First turn with the given id, if any. -/
def findTurn (ts : List Turn) (tid : Nat) : Option Turn :=
  ts.find? (fun t => t.id == tid)

/-- Replace the first turn with the given id by its image under `f`. -/
def updateTurn (ts : List Turn) (tid : Nat) (f : Turn → Turn) : List Turn :=
  match ts with
  | [] => []
  | t :: rest =>
    if t.id == tid then f t :: rest else t :: updateTurn rest tid f

/-- Is some turn currently in `streaming` status? -/
def someStreaming (ts : List Turn) : Bool :=
  ts.any (fun t => t.status == Status.streaming)

/-- Number of turns in `streaming` status. -/
def streamingCount (ts : List Turn) : Nat :=
  ts.countP (fun t => t.status == Status.streaming)

/-- Is some turn currently `pending` or `streaming` (an outstanding turn,
for the §4.2 concurrency guard)? -/
def someInFlight (ts : List Turn) : Bool :=
  ts.any (fun t => t.status == Status.pending || t.status == Status.streaming)

/-- Modelled from the spec: `appendTurn(role, initialContent)` of §4.1 —
inserts a new Turn at the end; an assistant turn starts with empty content
in `pending`, user/system turns carry their content and are immediately
`complete`. (Roles are a closed typed set here, so `InvalidRoleError`
cannot arise.) Returns the new store and the new turn's id. -/
def appendTurn (s : Store) (role : Role) (initialContent : String) :
    Store × Nat :=
  let t : Turn :=
    match role with
    | .assistant =>
        { id := s.nextId, role := role, content := "", status := .pending }
    | _ =>
        { id := s.nextId, role := role, content := initialContent,
          status := .complete }
  ({ turns := s.turns ++ [t], nextId := s.nextId + 1 }, s.nextId)

/-- Modelled from the spec: `beginStreaming(turnId)` of §4.1 — transitions
`pending -> streaming`; fails with `InvalidTransitionError` if the turn is
not `pending` or another turn is already `streaming`. -/
def beginStreaming (s : Store) (tid : Nat) : Except StoreError Store :=
  match findTurn s.turns tid with
  | none => .error .InvalidTransitionError
  | some t =>
    if t.status == Status.pending && !someStreaming s.turns then
      .ok { s with
              turns := updateTurn s.turns tid
                (fun u => { u with status := .streaming }) }
    else .error .InvalidTransitionError

/-- Modelled from the spec: `appendChunk(turnId, text)` of §4.1 —
concatenates `text` onto the turn's content; fails with
`InvalidTransitionError` if the turn is not `streaming`. -/
def appendChunk (s : Store) (tid : Nat) (text : String) :
    Except StoreError Store :=
  match findTurn s.turns tid with
  | none => .error .InvalidTransitionError
  | some t =>
    if t.status == Status.streaming then
      .ok { s with
              turns := updateTurn s.turns tid
                (fun u => { u with content := u.content ++ text }) }
    else .error .InvalidTransitionError

/-- Modelled from the spec: `completeTurn(turnId)` of §4.1 — transitions
`streaming -> complete`; fails if not currently `streaming`. -/
def completeTurn (s : Store) (tid : Nat) : Except StoreError Store :=
  match findTurn s.turns tid with
  | none => .error .InvalidTransitionError
  | some t =>
    if t.status == Status.streaming then
      .ok { s with
              turns := updateTurn s.turns tid
                (fun u => { u with status := .complete }) }
    else .error .InvalidTransitionError

/-- Modelled from the spec: `errorTurn(turnId, reason)` of §4.1 —
transitions `streaming -> errored(reason)`; fails if not currently
`streaming`. Partial content already appended is left in place. -/
def errorTurn (s : Store) (tid : Nat) (reason : ErrReason) :
    Except StoreError Store :=
  match findTurn s.turns tid with
  | none => .error .InvalidTransitionError
  | some t =>
    if t.status == Status.streaming then
      .ok { s with
              turns := updateTurn s.turns tid
                (fun u => { u with status := .errored reason }) }
    else .error .InvalidTransitionError

/-- One Conversation Store operation of §4.1, for stating properties that
quantify over all operations. -/
inductive StoreOp where
  | appendTurn (role : Role) (initialContent : String)
  | beginStreaming (tid : Nat)
  | appendChunk (tid : Nat) (text : String)
  | completeTurn (tid : Nat)
  | errorTurn (tid : Nat) (reason : ErrReason)
deriving DecidableEq, Repr

/-- Apply one Store operation. -/
def applyOp (s : Store) : StoreOp → Except StoreError Store
  | .appendTurn role c => .ok (appendTurn s role c).1
  | .beginStreaming tid => beginStreaming s tid
  | .appendChunk tid text => appendChunk s tid text
  | .completeTurn tid => completeTurn s tid
  | .errorTurn tid r => errorTurn s tid r

/-! ## Turn Streaming Controller -/

/-- Modelled from the spec: the synchronous errors of `submitTurn` (§4.2,
§7): `ValidationError` for bad input, `TurnInFlightError` for the
concurrency guard. -/
inductive SubmitError where
  | ValidationError
  | TurnInFlightError
deriving DecidableEq, Repr

/-- Modelled from the spec: the single outbound request of §4.2/§6 —
the entire ordered transcript, each turn reduced to `{role, content}`,
plus the resolved backend model identifier. -/
structure OutboundRequest where
  transcript : List Message
  modelId : String
deriving DecidableEq, Repr

/-- Reduce a stored turn to its wire form `{role, content}`. -/
def Turn.toWire (t : Turn) : Message :=
  { role := t.role.toWire, content := t.content }

/-- Modelled from the spec: `submitTurn(userText, modeKey)` of §4.2.
Validates `userText` (non-empty after trimming) and `modeKey` (present in
the catalog `MODELS` of `src/lib/groqModels.ts`), failing fast with
`ValidationError`; enforces the concurrency guard (`TurnInFlightError`
while a turn is `pending` or `streaming`); then appends the `user` turn
and the `pending` assistant turn, and issues the one outbound request
carrying the transcript up to and including the new user turn, each turn
reduced to `{role, content}`, plus the resolved model identifier. Returns
the store in every case; error branches return it unchanged (no mutation,
no network call). On success also returns the assistant turn's id. -/
def submitTurn (s : Store) (userText : String) (modeKey : String) :
    Except SubmitError (Nat × OutboundRequest) × Store :=
  if jsTrim userText == "" then (.error .ValidationError, s)
  else
    match MODELS modeKey with
    | none => (.error .ValidationError, s)
    | some modelId =>
      if someInFlight s.turns then (.error .TurnInFlightError, s)
      else
        let (s1, _) := appendTurn s Role.user userText
        let (s2, aid) := appendTurn s1 Role.assistant ""
        (.ok (aid, { transcript := s1.turns.map Turn.toWire,
                     modelId := modelId }), s2)

/-- Modelled from the spec: the cancellation handle returned by
`submitTurn` (§4.2). Invoking it closes the transport and captures the
assistant turn's status as `errored` with reason `cancelled`, unless the
turn had already reached `complete`, in which case cancellation is a
no-op. Content already appended is left in place. -/
def cancelTurn (s : Store) (tid : Nat) : Store :=
  match findTurn s.turns tid with
  | none => s
  | some t =>
    if t.status == Status.complete then s
    else
      { s with
          turns := updateTurn s.turns tid
            (fun u => { u with status := .errored .cancelled }) }

/-- Apply a list of chunks in order via `appendChunk`. -/
def applyChunks (s : Store) (tid : Nat) :
    List String → Except StoreError Store
  | [] => .ok s
  | c :: cs => do
    let s' ← appendChunk s tid c
    applyChunks s' tid cs

/-- Concatenation of a list of chunks in delivery order. -/
def concatChunks : List String → String
  | [] => ""
  | c :: cs => c ++ concatChunks cs

/-- Modelled from the spec: the per-turn status state machine of §4.1,
`pending -> streaming -> {complete | errored}`, as the relation containing
staying put and the single-step transitions. -/
def statusStep (a b : Status) : Prop :=
  a = b ∨
  (a = .pending ∧ b = .streaming) ∨
  (a = .streaming ∧ (b = .complete ∨ ∃ r, b = .errored r))

/-- Position of a status along the state machine: `pending` before
`streaming` before the terminal states. -/
def statusRank : Status → Nat
  | .pending => 0
  | .streaming => 1
  | .complete => 2
  | .errored _ => 2

/-! ## Helper lemmas about the Store primitives -/

theorem findTurn_append_of_found (ts : List Turn) (x : Turn) (tid : Nat)
    (t : Turn) (h : findTurn ts tid = some t) :
    findTurn (ts ++ [x]) tid = some t := by
  simp only [findTurn, List.find?_append] at h ⊢
  simp [h]

theorem findTurn_updateTurn_self (ts : List Turn) (tid : Nat) (f : Turn → Turn)
    (hf : ∀ u, (f u).id = u.id) :
    findTurn (updateTurn ts tid f) tid = (findTurn ts tid).map f := by
  induction ts with
  | nil => simp [findTurn, updateTurn]
  | cons a rest ih =>
    by_cases ha : a.id = tid
    · simp [findTurn, updateTurn, ha, hf]
    · simp only [updateTurn, beq_iff_eq, ha, if_false]
      simp only [findTurn] at ih ⊢
      rw [List.find?_cons_of_neg, List.find?_cons_of_neg, ih]
      · simp [ha]
      · simp [ha]

theorem findTurn_updateTurn_ne (ts : List Turn) (tid tid' : Nat)
    (f : Turn → Turn) (hf : ∀ u, (f u).id = u.id) (hne : tid' ≠ tid) :
    findTurn (updateTurn ts tid f) tid' = findTurn ts tid' := by
  induction ts with
  | nil => simp [findTurn, updateTurn]
  | cons a rest ih =>
    by_cases ha : a.id = tid
    · have hfa : (f a).id = a.id := hf a
      simp only [updateTurn, beq_iff_eq, ha, if_true]
      simp only [findTurn]
      rw [List.find?_cons_of_neg, List.find?_cons_of_neg]
      · simp [ha, Ne.symm hne]
      · simp [hfa, ha, Ne.symm hne]
    · simp only [updateTurn, beq_iff_eq, ha, if_false]
      by_cases ha' : a.id = tid'
      · simp [findTurn, ha']
      · simp only [findTurn] at ih ⊢
        rw [List.find?_cons_of_neg, List.find?_cons_of_neg, ih]
        · simp [ha']
        · simp [ha']

theorem countP_updateTurn_le_succ (ts : List Turn) (tid : Nat)
    (f : Turn → Turn) (p : Turn → Bool) :
    (updateTurn ts tid f).countP p ≤ ts.countP p + 1 := by
  induction ts with
  | nil => simp [updateTurn]
  | cons a rest ih =>
    by_cases ha : a.id = tid
    · simp only [updateTurn, beq_iff_eq, ha, if_true, List.countP_cons]
      split <;> split <;> omega
    · have hih := ih
      simp only [updateTurn, beq_iff_eq, ha, if_false, List.countP_cons]
      split <;> omega

theorem countP_updateTurn_of_preserve (ts : List Turn) (tid : Nat)
    (f : Turn → Turn) (p : Turn → Bool) (hp : ∀ u, p (f u) = p u) :
    (updateTurn ts tid f).countP p = ts.countP p := by
  induction ts with
  | nil => simp [updateTurn]
  | cons a rest ih =>
    by_cases ha : a.id = tid
    · simp [updateTurn, ha, List.countP_cons, hp]
    · simp [updateTurn, ha, List.countP_cons, ih]

theorem countP_updateTurn_of_false (ts : List Turn) (tid : Nat)
    (f : Turn → Turn) (p : Turn → Bool) (hp : ∀ u, p (f u) = false) :
    (updateTurn ts tid f).countP p ≤ ts.countP p := by
  induction ts with
  | nil => simp [updateTurn]
  | cons a rest ih =>
    by_cases ha : a.id = tid
    · simp only [updateTurn, beq_iff_eq, ha, if_true, List.countP_cons, hp]
      by_cases hpa : p a = true <;> simp [hpa]
    · have hih := ih
      simp only [updateTurn, beq_iff_eq, ha, if_false, List.countP_cons]
      by_cases hpa : p a = true <;> simp [hpa] <;> omega

theorem streamingCount_eq_zero_of_not_someStreaming (ts : List Turn)
    (h : someStreaming ts = false) : streamingCount ts = 0 := by
  simp only [someStreaming, List.any_eq_false] at h
  simp only [streamingCount, List.countP_eq_zero]
  intro t ht
  exact h t ht

theorem statusStep_terminal_complete (b : Status)
    (h : statusStep Status.complete b) : b = Status.complete := by
  rcases h with h | ⟨h1, h2⟩ | ⟨h1, h2⟩ <;> simp_all

theorem statusStep_terminal_errored (r : ErrReason) (b : Status)
    (h : statusStep (Status.errored r) b) : b = Status.errored r := by
  rcases h with h | ⟨h1, h2⟩ | ⟨h1, h2⟩ <;> simp_all

theorem statusStep_no_skip (a b : Status) (h : statusStep a b) :
    a = b ∨ statusRank b = statusRank a + 1 := by
  rcases h with h | ⟨h1, h2⟩ | ⟨h1, h2⟩
  · exact Or.inl h
  · subst h1; subst h2; exact Or.inr rfl
  · subst h1
    rcases h2 with h2 | ⟨r, h2⟩ <;> subst h2 <;> exact Or.inr rfl

theorem statusStep_of_applyOp (s : Store) (op : StoreOp) (s' : Store)
    (tid : Nat) (t t' : Turn) (h : applyOp s op = .ok s')
    (ht : findTurn s.turns tid = some t)
    (ht' : findTurn s'.turns tid = some t') :
    statusStep t.status t'.status := by
  cases op with
  | appendTurn role c =>
    simp only [applyOp, Except.ok.injEq] at h
    subst h
    have hft : findTurn ((appendTurn s role c).1).turns tid = some t := by
      cases role <;> exact findTurn_append_of_found s.turns _ tid t ht
    rw [hft] at ht'
    simp only [Option.some.injEq] at ht'
    subst ht'
    exact Or.inl rfl
  | beginStreaming tid₀ =>
    cases hft : findTurn s.turns tid₀ with
    | none => simp [applyOp, beginStreaming, hft] at h
    | some u =>
      simp only [applyOp, beginStreaming, hft] at h
      by_cases hcond :
          (u.status == Status.pending && !someStreaming s.turns) = true
      · rw [if_pos hcond] at h
        simp only [Except.ok.injEq] at h
        subst h
        by_cases htid : tid = tid₀
        · subst htid
          rw [ht] at hft
          simp only [Option.some.injEq] at hft
          subst hft
          have ht'2 : (findTurn s.turns tid).map
              (fun v => { v with status := Status.streaming }) = some t' := by
            rw [← findTurn_updateTurn_self s.turns tid
              (fun v => { v with status := Status.streaming }) (fun _ => rfl)]
            exact ht'
          rw [ht] at ht'2
          simp only [Option.map_some', Option.some.injEq] at ht'2
          subst ht'2
          have hpend : t.status = Status.pending := by
            simp only [Bool.and_eq_true, beq_iff_eq] at hcond
            exact hcond.1
          exact Or.inr (Or.inl ⟨hpend, rfl⟩)
        · have ht'2 : findTurn s.turns tid = some t' := by
            rw [← findTurn_updateTurn_ne s.turns tid₀ tid
              (fun v => { v with status := Status.streaming })
              (fun _ => rfl) htid]
            exact ht'
          rw [ht] at ht'2
          simp only [Option.some.injEq] at ht'2
          subst ht'2
          exact Or.inl rfl
      · rw [if_neg hcond] at h
        simp at h
  | appendChunk tid₀ text =>
    cases hft : findTurn s.turns tid₀ with
    | none => simp [applyOp, appendChunk, hft] at h
    | some u =>
      simp only [applyOp, appendChunk, hft] at h
      by_cases hcond : (u.status == Status.streaming) = true
      · rw [if_pos hcond] at h
        simp only [Except.ok.injEq] at h
        subst h
        by_cases htid : tid = tid₀
        · subst htid
          rw [ht] at hft
          simp only [Option.some.injEq] at hft
          subst hft
          have ht'2 : (findTurn s.turns tid).map
              (fun v => { v with content := v.content ++ text }) =
                some t' := by
            rw [← findTurn_updateTurn_self s.turns tid
              (fun v => { v with content := v.content ++ text })
              (fun _ => rfl)]
            exact ht'
          rw [ht] at ht'2
          simp only [Option.map_some', Option.some.injEq] at ht'2
          subst ht'2
          exact Or.inl rfl
        · have ht'2 : findTurn s.turns tid = some t' := by
            rw [← findTurn_updateTurn_ne s.turns tid₀ tid
              (fun v => { v with content := v.content ++ text })
              (fun _ => rfl) htid]
            exact ht'
          rw [ht] at ht'2
          simp only [Option.some.injEq] at ht'2
          subst ht'2
          exact Or.inl rfl
      · rw [if_neg hcond] at h
        simp at h
  | completeTurn tid₀ =>
    cases hft : findTurn s.turns tid₀ with
    | none => simp [applyOp, completeTurn, hft] at h
    | some u =>
      simp only [applyOp, completeTurn, hft] at h
      by_cases hcond : (u.status == Status.streaming) = true
      · rw [if_pos hcond] at h
        simp only [Except.ok.injEq] at h
        subst h
        by_cases htid : tid = tid₀
        · subst htid
          rw [ht] at hft
          simp only [Option.some.injEq] at hft
          subst hft
          have ht'2 : (findTurn s.turns tid).map
              (fun v => { v with status := Status.complete }) = some t' := by
            rw [← findTurn_updateTurn_self s.turns tid
              (fun v => { v with status := Status.complete })
              (fun _ => rfl)]
            exact ht'
          rw [ht] at ht'2
          simp only [Option.map_some', Option.some.injEq] at ht'2
          subst ht'2
          have hstr : t.status = Status.streaming := by
            simpa using hcond
          exact Or.inr (Or.inr ⟨hstr, Or.inl rfl⟩)
        · have ht'2 : findTurn s.turns tid = some t' := by
            rw [← findTurn_updateTurn_ne s.turns tid₀ tid
              (fun v => { v with status := Status.complete })
              (fun _ => rfl) htid]
            exact ht'
          rw [ht] at ht'2
          simp only [Option.some.injEq] at ht'2
          subst ht'2
          exact Or.inl rfl
      · rw [if_neg hcond] at h
        simp at h
  | errorTurn tid₀ r =>
    cases hft : findTurn s.turns tid₀ with
    | none => simp [applyOp, errorTurn, hft] at h
    | some u =>
      simp only [applyOp, errorTurn, hft] at h
      by_cases hcond : (u.status == Status.streaming) = true
      · rw [if_pos hcond] at h
        simp only [Except.ok.injEq] at h
        subst h
        by_cases htid : tid = tid₀
        · subst htid
          rw [ht] at hft
          simp only [Option.some.injEq] at hft
          subst hft
          have ht'2 : (findTurn s.turns tid).map
              (fun v => { v with status := Status.errored r }) = some t' := by
            rw [← findTurn_updateTurn_self s.turns tid
              (fun v => { v with status := Status.errored r })
              (fun _ => rfl)]
            exact ht'
          rw [ht] at ht'2
          simp only [Option.map_some', Option.some.injEq] at ht'2
          subst ht'2
          have hstr : t.status = Status.streaming := by
            simpa using hcond
          exact Or.inr (Or.inr ⟨hstr, Or.inr ⟨r, rfl⟩⟩)
        · have ht'2 : findTurn s.turns tid = some t' := by
            rw [← findTurn_updateTurn_ne s.turns tid₀ tid
              (fun v => { v with status := Status.errored r })
              (fun _ => rfl) htid]
            exact ht'
          rw [ht] at ht'2
          simp only [Option.some.injEq] at ht'2
          subst ht'2
          exact Or.inl rfl
      · rw [if_neg hcond] at h
        simp at h

/-! ## Claim theorems -/

/-- C1: a turn request whose mode key is not a key of the loaded mode
catalog is rejected with `ValidationError` before any network call (no
outbound request is produced and the store is returned unchanged), and the
API route likewise answers 400 "Valid mode is required" without reaching
the inference call. -/
theorem unknownMode_rejected_before_network (s : Store)
    (userText modeKey : String) (msgs : List Message) (b : Bool)
    (hmode : MODELS modeKey = none) :
    submitTurn s userText modeKey = (.error .ValidationError, s) ∧
    POST (some { messages := some msgs, mode := some modeKey }) b =
      ApiResponse.text 400 "Valid mode is required" := by
  constructor
  · unfold submitTurn
    by_cases ht : jsTrim userText = ""
    · simp [ht]
    · simp [ht, hmode]
  · simp [POST, hmode]

/-- Witness for C1 at the unknown key "turbo". -/
theorem unknownMode_rejected_before_network_witness :
    MODELS "turbo" = none ∧
    (submitTurn { turns := [], nextId := 0 } "Hello" "turbo" =
       (.error .ValidationError, { turns := [], nextId := 0 }) ∧
     POST (some { messages := some [], mode := some "turbo" }) true =
       ApiResponse.text 400 "Valid mode is required") :=
  ⟨rfl,
   unknownMode_rejected_before_network { turns := [], nextId := 0 }
     "Hello" "turbo" [] true rfl⟩

/-- C5: submitting `userText` that is empty after trimming performs no
mutation (the store is returned unchanged) and no network call, failing
with `ValidationError`; in the UI the Send button is likewise disabled for
such input. -/
theorem emptyText_rejected (s : Store) (userText modeKey : String)
    (h : jsTrim userText = "") :
    submitTurn s userText modeKey = (.error .ValidationError, s) ∧
    sendDisabled false userText = true := by
  constructor
  · unfold submitTurn
    simp [h]
  · simp [sendDisabled, h]

/-- Witness for C5 at the whitespace-only input "  ". -/
theorem emptyText_rejected_witness :
    jsTrim "  " = "" ∧
    (submitTurn { turns := [], nextId := 0 } "  " "fast" =
       (.error .ValidationError, { turns := [], nextId := 0 }) ∧
     sendDisabled false "  " = true) :=
  ⟨by decide,
   emptyText_rejected { turns := [], nextId := 0 } "  " "fast" (by decide)⟩

/-- C6: while some turn is `pending` or `streaming`, a second `submitTurn`
on the same conversation fails with `TurnInFlightError` and returns the
store unchanged, so the in-flight turn's status and content are
untouched. -/
theorem inflight_second_submit_rejected (s : Store)
    (userText modeKey modelId : String)
    (htext : ¬ jsTrim userText = "")
    (hmode : MODELS modeKey = some modelId)
    (hflight : someInFlight s.turns = true) :
    submitTurn s userText modeKey = (.error .TurnInFlightError, s) := by
  unfold submitTurn
  simp [htext, hmode, hflight]

/-- Witness for C6: a store holding a streaming assistant turn rejects a
second submission and is returned unchanged. -/
theorem inflight_second_submit_rejected_witness :
    ¬ (jsTrim "Hi again" = "") ∧
    MODELS "fast" = some "llama-3.1-8b-instant" ∧
    someInFlight
      [{ id := 0, role := Role.assistant, content := "par",
         status := Status.streaming }] = true ∧
    submitTurn
      { turns := [{ id := 0, role := Role.assistant, content := "par",
                    status := Status.streaming }], nextId := 1 }
      "Hi again" "fast" =
      (.error .TurnInFlightError,
       { turns := [{ id := 0, role := Role.assistant, content := "par",
                     status := Status.streaming }], nextId := 1 }) :=
  ⟨by decide, rfl, by decide,
   inflight_second_submit_rejected _ "Hi again" "fast" "llama-3.1-8b-instant"
     (by decide) rfl (by decide)⟩

/-- C9: a POST whose body carries an empty messages array and a valid mode
key passes both validation checks and proceeds to the inference call; the
route never rejects a request solely because the transcript is empty. -/
theorem emptyTranscript_accepted (modeKey modelId : String)
    (hmode : MODELS modeKey = some modelId) :
    POST (some { messages := some [], mode := some modeKey }) true =
      ApiResponse.stream modelId [] := by
  simp [POST, hmode]

/-- Witness for C9 at mode "fast". -/
theorem emptyTranscript_accepted_witness :
    MODELS "fast" = some "llama-3.1-8b-instant" ∧
    POST (some { messages := some [], mode := some "fast" }) true =
      ApiResponse.stream "llama-3.1-8b-instant" [] :=
  ⟨rfl, emptyTranscript_accepted "fast" "llama-3.1-8b-instant" rfl⟩

/-- C10: the POST handler always returns a response (parse failure yields
500 "Internal server error"; so does a failure during stream setup even
with a valid body), the messages-array check precedes the mode check (a
request failing both yields 400 "Messages array is required"), and every
possible outcome is one of the response constructors — no exception
escapes. -/
theorem post_total_and_check_order (b : Bool) (req : Option ChatRequest)
    (msgs : List Message) (badKey goodKey modelId : String)
    ( _hbad : MODELS badKey = none) (hgood : MODELS goodKey = some modelId) :
    POST none b = ApiResponse.text 500 "Internal server error" ∧
    POST (some { messages := none, mode := some badKey }) b =
      ApiResponse.text 400 "Messages array is required" ∧
    POST (some { messages := some msgs, mode := some goodKey }) false =
      ApiResponse.text 500 "Internal server error" ∧
    ((∃ st body, POST req b = ApiResponse.text st body) ∨
     (∃ mid ms, POST req b = ApiResponse.stream mid ms)) := by
  refine ⟨rfl, rfl, by simp [POST, hgood], ?_⟩
  match req with
  | none => exact Or.inl ⟨500, "Internal server error", rfl⟩
  | some r =>
    match hm : r.messages with
    | none => exact Or.inl ⟨400, "Messages array is required", by simp [POST, hm]⟩
    | some ms =>
      match hmd : r.mode.bind MODELS with
      | none => exact Or.inl ⟨400, "Valid mode is required", by simp [POST, hm, hmd]⟩
      | some mid =>
        cases b with
        | true => exact Or.inr ⟨mid, ms, by simp [POST, hm, hmd]⟩
        | false => exact Or.inl ⟨500, "Internal server error", by simp [POST, hm, hmd]⟩

/-- Witness for C10 with the unknown key "turbo" and the valid key
"fast". -/
theorem post_total_and_check_order_witness :
    MODELS "turbo" = none ∧
    MODELS "fast" = some "llama-3.1-8b-instant" ∧
    (POST none true = ApiResponse.text 500 "Internal server error" ∧
     POST (some { messages := none, mode := some "turbo" }) true =
       ApiResponse.text 400 "Messages array is required" ∧
     POST (some { messages := some [], mode := some "fast" }) false =
       ApiResponse.text 500 "Internal server error" ∧
     ((∃ st body, POST none true = ApiResponse.text st body) ∨
      (∃ mid ms, POST none true = ApiResponse.stream mid ms))) :=
  ⟨rfl, rfl,
   post_total_and_check_order true none [] "turbo" "fast"
     "llama-3.1-8b-instant" rfl rfl⟩

/-- C2: an accepted turn submission produces exactly one outbound request,
carrying the whole ordered transcript — every prior turn plus the new user
turn, in order, each reduced to `{role, content}` — and the backend model
identifier obtained by looking the mode key up in the catalog; in
particular mode "default" resolves to "llama-3.3-70b-versatile". -/
theorem acceptedSubmit_issues_full_transcript_request (s : Store)
    (userText modeKey modelId : String)
    (hmode : MODELS modeKey = some modelId)
    (htext : ¬ jsTrim userText = "")
    (hflight : someInFlight s.turns = false) :
    (∃ aid s',
      submitTurn s userText modeKey =
        (.ok (aid,
          { transcript := s.turns.map Turn.toWire ++
              [{ role := "user", content := userText }],
            modelId := modelId }), s')) ∧
    MODELS "default" = some "llama-3.3-70b-versatile" := by
  refine ⟨⟨s.nextId + 1,
    { turns := s.turns ++
        [{ id := s.nextId, role := Role.user, content := userText,
           status := Status.complete },
         { id := s.nextId + 1, role := Role.assistant, content := "",
           status := Status.pending }],
      nextId := s.nextId + 2 }, ?_⟩, rfl⟩
  unfold submitTurn
  simp [htext, hmode, hflight, appendTurn, Turn.toWire, Role.toWire]

/-- Witness for C2: submitting "Hello" in mode "default" from a
conversation holding one completed exchange sends the three-message
transcript and the resolved model id. -/
theorem acceptedSubmit_issues_full_transcript_request_witness :
    MODELS "default" = some "llama-3.3-70b-versatile" ∧
    ¬ jsTrim "Hello" = "" ∧
    someInFlight
      [{ id := 0, role := Role.user, content := "2+2?",
         status := Status.complete },
       { id := 1, role := Role.assistant, content := "4",
         status := Status.complete }] = false ∧
    ((∃ aid s',
      submitTurn
        { turns :=
            [{ id := 0, role := Role.user, content := "2+2?",
               status := Status.complete },
             { id := 1, role := Role.assistant, content := "4",
               status := Status.complete }], nextId := 2 }
        "Hello" "default" =
        (.ok (aid,
          { transcript :=
              [{ id := 0, role := Role.user, content := "2+2?",
                 status := Status.complete },
               { id := 1, role := Role.assistant, content := "4",
                 status := Status.complete }].map Turn.toWire ++
              [{ role := "user", content := "Hello" }],
            modelId := "llama-3.3-70b-versatile" }), s')) ∧
     MODELS "default" = some "llama-3.3-70b-versatile") :=
  ⟨rfl, by decide, by decide,
   acceptedSubmit_issues_full_transcript_request _ "Hello" "default"
     "llama-3.3-70b-versatile" rfl (by decide) (by decide)⟩

/-- C3: delivering a sequence of chunks to a turn in `streaming` status
leaves that turn's content equal to its prior content followed by the
concatenation of exactly those chunks in delivery order (for an assistant
turn the prior content is empty, so the content is exactly the
concatenation) — no chunk is lost, duplicated or reordered — and every
other turn of the conversation is left untouched, so no chunk is applied
to any turn but the streaming one. -/
theorem chunks_concatenate_in_order (s : Store) (tid : Nat) (t : Turn)
    (chunks : List String)
    (ht : findTurn s.turns tid = some t)
    (hs : t.status = Status.streaming) :
    ∃ s', applyChunks s tid chunks = .ok s' ∧
      findTurn s'.turns tid =
        some { t with content := t.content ++ concatChunks chunks } ∧
      ∀ tid', tid' ≠ tid →
        findTurn s'.turns tid' = findTurn s.turns tid' := by
  induction chunks generalizing s t with
  | nil =>
    refine ⟨s, rfl, ?_, fun _ _ => rfl⟩
    simpa [concatChunks] using ht
  | cons c cs ih =>
    have hid : ∀ u : Turn,
        ({ u with content := u.content ++ c } : Turn).id = u.id :=
      fun _ => rfl
    have hstep : appendChunk s tid c = .ok ⟨updateTurn s.turns tid (fun u => { u with content := u.content ++ c }), s.nextId⟩ := by
      unfold appendChunk
      rw [ht]
      simp [hs]
    have hfind1 : findTurn (updateTurn s.turns tid (fun u => { u with content := u.content ++ c })) tid = some { t with content := t.content ++ c } := by
      rw [findTurn_updateTurn_self _ _ _ hid, ht]
      rfl
    obtain ⟨s', happly, hfind, hframe⟩ :=
      ih ⟨updateTurn s.turns tid (fun u => { u with content := u.content ++ c }), s.nextId⟩
         { t with content := t.content ++ c } hfind1 hs
    refine ⟨s', ?_, ?_, ?_⟩
    · simp only [applyChunks, hstep]
      exact happly
    · simpa [concatChunks, String.append_assoc] using hfind
    · intro tid' hne
      rw [hframe tid' hne, findTurn_updateTurn_ne _ _ _ _ hid hne]

/-- Witness for C3: chunks "Hel", "lo" applied to a streaming assistant
turn with empty content yield content "Hello" and leave the user turn
unchanged. -/
theorem chunks_concatenate_in_order_witness :
    findTurn
      [{ id := 0, role := Role.user, content := "Hi!",
         status := Status.complete },
       { id := 1, role := Role.assistant, content := "",
         status := Status.streaming }] 1 =
      some { id := 1, role := Role.assistant, content := "",
             status := Status.streaming } ∧
    (∃ s', applyChunks
        { turns :=
            [{ id := 0, role := Role.user, content := "Hi!",
               status := Status.complete },
             { id := 1, role := Role.assistant, content := "",
               status := Status.streaming }], nextId := 2 }
        1 ["Hel", "lo"] = .ok s' ∧
      findTurn s'.turns 1 =
        some { id := 1, role := Role.assistant,
               content := "" ++ concatChunks ["Hel", "lo"],
               status := Status.streaming } ∧
      ∀ tid', tid' ≠ 1 →
        findTurn s'.turns tid' =
          findTurn
            [{ id := 0, role := Role.user, content := "Hi!",
               status := Status.complete },
             { id := 1, role := Role.assistant, content := "",
               status := Status.streaming }] tid') :=
  ⟨by decide,
   chunks_concatenate_in_order
     { turns :=
         [{ id := 0, role := Role.user, content := "Hi!",
            status := Status.complete },
          { id := 1, role := Role.assistant, content := "",
            status := Status.streaming }], nextId := 2 }
     1
     { id := 1, role := Role.assistant, content := "",
       status := Status.streaming }
     ["Hel", "lo"] (by decide) rfl⟩

/-- C4: every Conversation Store operation (appendTurn, beginStreaming,
appendChunk, completeTurn, errorTurn) preserves the invariant that at most
one turn of the conversation is in `streaming` status: from any state
satisfying it, any operation that succeeds yields a state satisfying it. -/
theorem store_ops_preserve_single_streaming (s : Store) (op : StoreOp)
    (s' : Store) (hinv : streamingCount s.turns ≤ 1)
    (h : applyOp s op = .ok s') :
    streamingCount s'.turns ≤ 1 := by
  cases op with
  | appendTurn role c =>
    simp only [applyOp, Except.ok.injEq] at h
    subst h
    cases role <;>
      simpa [appendTurn, streamingCount, List.countP_append,
             List.countP_cons] using hinv
  | beginStreaming tid =>
    cases hft : findTurn s.turns tid with
    | none => simp [applyOp, beginStreaming, hft] at h
    | some u =>
      simp only [applyOp, beginStreaming, hft] at h
      by_cases hcond :
          (u.status == Status.pending && !someStreaming s.turns) = true
      · rw [if_pos hcond] at h
        simp only [Except.ok.injEq] at h
        subst h
        have hns : someStreaming s.turns = false := by
          have hc := hcond
          simp only [Bool.and_eq_true, Bool.not_eq_true'] at hc
          exact hc.2
        have h0 : streamingCount s.turns = 0 :=
          streamingCount_eq_zero_of_not_someStreaming _ hns
        have := countP_updateTurn_le_succ s.turns tid
          (fun u => { u with status := .streaming })
          (fun t => t.status == Status.streaming)
        simp only [streamingCount] at h0 ⊢
        omega
      · rw [if_neg hcond] at h
        simp at h
  | appendChunk tid text =>
    cases hft : findTurn s.turns tid with
    | none => simp [applyOp, appendChunk, hft] at h
    | some u =>
      simp only [applyOp, appendChunk, hft] at h
      by_cases hcond : (u.status == Status.streaming) = true
      · rw [if_pos hcond] at h
        simp only [Except.ok.injEq] at h
        subst h
        have := countP_updateTurn_of_preserve s.turns tid
          (fun u => { u with content := u.content ++ text })
          (fun t => t.status == Status.streaming) (fun _ => rfl)
        simp only [streamingCount] at hinv ⊢
        omega
      · rw [if_neg hcond] at h
        simp at h
  | completeTurn tid =>
    cases hft : findTurn s.turns tid with
    | none => simp [applyOp, completeTurn, hft] at h
    | some u =>
      simp only [applyOp, completeTurn, hft] at h
      by_cases hcond : (u.status == Status.streaming) = true
      · rw [if_pos hcond] at h
        simp only [Except.ok.injEq] at h
        subst h
        have := countP_updateTurn_of_false s.turns tid
          (fun u => { u with status := .complete })
          (fun t => t.status == Status.streaming) (fun _ => rfl)
        simp only [streamingCount] at hinv ⊢
        omega
      · rw [if_neg hcond] at h
        simp at h
  | errorTurn tid r =>
    cases hft : findTurn s.turns tid with
    | none => simp [applyOp, errorTurn, hft] at h
    | some u =>
      simp only [applyOp, errorTurn, hft] at h
      by_cases hcond : (u.status == Status.streaming) = true
      · rw [if_pos hcond] at h
        simp only [Except.ok.injEq] at h
        subst h
        have := countP_updateTurn_of_false s.turns tid
          (fun u => { u with status := .errored r })
          (fun t => t.status == Status.streaming) (fun _ => rfl)
        simp only [streamingCount] at hinv ⊢
        omega
      · rw [if_neg hcond] at h
        simp at h

/-- Witness for C4: beginning streaming on the pending turn of a two-turn
store keeps the streaming count at one. -/
theorem store_ops_preserve_single_streaming_witness :
    streamingCount
      [{ id := 0, role := Role.user, content := "Hi!",
         status := Status.complete },
       { id := 1, role := Role.assistant, content := "",
         status := Status.pending }] ≤ 1 ∧
    applyOp
      { turns :=
          [{ id := 0, role := Role.user, content := "Hi!",
             status := Status.complete },
           { id := 1, role := Role.assistant, content := "",
             status := Status.pending }], nextId := 2 }
      (StoreOp.beginStreaming 1) =
      .ok { turns :=
              [{ id := 0, role := Role.user, content := "Hi!",
                 status := Status.complete },
               { id := 1, role := Role.assistant, content := "",
                 status := Status.streaming }], nextId := 2 } ∧
    streamingCount
      [{ id := 0, role := Role.user, content := "Hi!",
         status := Status.complete },
       { id := 1, role := Role.assistant, content := "",
         status := Status.streaming }] ≤ 1 :=
  ⟨by decide, rfl,
   store_ops_preserve_single_streaming
     { turns :=
         [{ id := 0, role := Role.user, content := "Hi!",
            status := Status.complete },
          { id := 1, role := Role.assistant, content := "",
            status := Status.pending }], nextId := 2 }
     (StoreOp.beginStreaming 1)
     { turns :=
         [{ id := 0, role := Role.user, content := "Hi!",
            status := Status.complete },
          { id := 1, role := Role.assistant, content := "",
            status := Status.streaming }], nextId := 2 }
     (by decide) rfl⟩

/-- C7: invoking the cancellation handle on a turn that has not reached
`complete` sets its status to `errored` with reason `cancelled` while
leaving its content (all chunks already appended) and every other turn in
place; invoking it on a `complete` turn changes nothing. -/
theorem cancel_sets_errored_preserves_content (s : Store) (tid : Nat)
    (t : Turn) (ht : findTurn s.turns tid = some t) :
    (¬ t.status = Status.complete →
      findTurn (cancelTurn s tid).turns tid =
        some { t with status := Status.errored ErrReason.cancelled } ∧
      (∀ tid', tid' ≠ tid →
        findTurn (cancelTurn s tid).turns tid' = findTurn s.turns tid')) ∧
    (t.status = Status.complete → cancelTurn s tid = s) := by
  constructor
  · intro hnc
    have hb : (t.status == Status.complete) = false := by
      simp [hnc]
    have hs' : cancelTurn s tid =
        ⟨updateTurn s.turns tid
           (fun u => { u with status := Status.errored ErrReason.cancelled }),
         s.nextId⟩ := by
      unfold cancelTurn
      rw [ht]
      simp [hb]
    rw [hs']
    constructor
    · show findTurn (updateTurn s.turns tid
        (fun u => { u with status := Status.errored ErrReason.cancelled }))
        tid = _
      rw [findTurn_updateTurn_self s.turns tid
        (fun u => { u with status := Status.errored ErrReason.cancelled })
        (fun _ => rfl), ht]
      rfl
    · intro tid' hne
      show findTurn (updateTurn s.turns tid
        (fun u => { u with status := Status.errored ErrReason.cancelled }))
        tid' = _
      exact findTurn_updateTurn_ne s.turns tid tid'
        (fun u => { u with status := Status.errored ErrReason.cancelled })
        (fun _ => rfl) hne
  · intro hc
    unfold cancelTurn
    rw [ht]
    simp [hc]

/-- Witness for C7: after chunk "Hi" was applied to the streaming
assistant turn, cancellation makes it `errored cancelled` with content
still "Hi". -/
theorem cancel_sets_errored_preserves_content_witness :
    findTurn
      [{ id := 0, role := Role.user, content := "Hello",
         status := Status.complete },
       { id := 1, role := Role.assistant, content := "Hi",
         status := Status.streaming }] 1 =
      some { id := 1, role := Role.assistant, content := "Hi",
             status := Status.streaming } ∧
    (findTurn
        (cancelTurn
          { turns :=
              [{ id := 0, role := Role.user, content := "Hello",
                 status := Status.complete },
               { id := 1, role := Role.assistant, content := "Hi",
                 status := Status.streaming }], nextId := 2 } 1).turns 1 =
      some { id := 1, role := Role.assistant, content := "Hi",
             status := Status.errored ErrReason.cancelled } ∧
     ∀ tid', tid' ≠ 1 →
       findTurn
         (cancelTurn
           { turns :=
               [{ id := 0, role := Role.user, content := "Hello",
                  status := Status.complete },
                { id := 1, role := Role.assistant, content := "Hi",
                  status := Status.streaming }], nextId := 2 } 1).turns tid' =
       findTurn
         [{ id := 0, role := Role.user, content := "Hello",
            status := Status.complete },
          { id := 1, role := Role.assistant, content := "Hi",
            status := Status.streaming }] tid') :=
  ⟨by decide,
   (cancel_sets_errored_preserves_content
     { turns :=
         [{ id := 0, role := Role.user, content := "Hello",
            status := Status.complete },
          { id := 1, role := Role.assistant, content := "Hi",
            status := Status.streaming }], nextId := 2 } 1
     { id := 1, role := Role.assistant, content := "Hi",
       status := Status.streaming } (by decide)).1 (by decide)⟩

/-- C8: across every Conversation Store operation, a turn's status only
follows the state machine `pending -> streaming -> (complete | errored)`:
each operation either leaves a turn's status unchanged or advances it by
exactly one step along the machine (no state is skipped and nothing moves
backwards), and the relation admits no transition out of the terminal
states `complete` and `errored`. -/
theorem turn_status_follows_state_machine (s : Store) (op : StoreOp)
    (s' : Store) (tid : Nat) (t t' : Turn) (h : applyOp s op = .ok s')
    (ht : findTurn s.turns tid = some t)
    (ht' : findTurn s'.turns tid = some t') :
    statusStep t.status t'.status ∧
    (∀ b, statusStep Status.complete b → b = Status.complete) ∧
    (∀ r b, statusStep (Status.errored r) b → b = Status.errored r) ∧
    (∀ a b, statusStep a b → a = b ∨ statusRank b = statusRank a + 1) :=
  ⟨statusStep_of_applyOp s op s' tid t t' h ht ht',
   statusStep_terminal_complete,
   statusStep_terminal_errored,
   statusStep_no_skip⟩

/-- Witness for C8: beginning streaming on a pending assistant turn is one
legal step of the state machine. -/
theorem turn_status_follows_state_machine_witness :
    applyOp
      { turns := [{ id := 0, role := Role.assistant, content := "",
                    status := Status.pending }], nextId := 1 }
      (StoreOp.beginStreaming 0) =
      .ok { turns := [{ id := 0, role := Role.assistant, content := "",
                        status := Status.streaming }], nextId := 1 } ∧
    findTurn [{ id := 0, role := Role.assistant, content := "",
                status := Status.pending }] 0 =
      some { id := 0, role := Role.assistant, content := "",
             status := Status.pending } ∧
    findTurn [{ id := 0, role := Role.assistant, content := "",
                status := Status.streaming }] 0 =
      some { id := 0, role := Role.assistant, content := "",
             status := Status.streaming } ∧
    (statusStep Status.pending Status.streaming ∧
     (∀ b, statusStep Status.complete b → b = Status.complete) ∧
     (∀ r b, statusStep (Status.errored r) b → b = Status.errored r) ∧
     (∀ a b, statusStep a b → a = b ∨ statusRank b = statusRank a + 1)) :=
  ⟨rfl, by decide, by decide,
   turn_status_follows_state_machine
     { turns := [{ id := 0, role := Role.assistant, content := "",
                   status := Status.pending }], nextId := 1 }
     (StoreOp.beginStreaming 0)
     { turns := [{ id := 0, role := Role.assistant, content := "",
                   status := Status.streaming }], nextId := 1 }
     0
     { id := 0, role := Role.assistant, content := "",
       status := Status.pending }
     { id := 0, role := Role.assistant, content := "",
       status := Status.streaming }
     rfl (by decide) (by decide)⟩

end GroqChat
